import Mathlib

/-!
Shallow embedding of the MCP base64 server core:
`services/base64_service.py`, `services/error_handler.py`,
`services/mcp_protocol_handler.py`, `models/mcp_models.py`,
`transports/transport_interface.py`.

Modelling conventions:
* Python `str` values are Lean `String`s (sequences of Unicode scalar
  values).  Python `len` on a `str` counts scalar values, which matches
  `String.length`.
* Byte strings are `List Nat` with every element below 256.
* JSON-shaped data (request params, results, error data) is the
  inductive `JValue`.
* Functions documented to raise `ValueError` are modelled with
  `Except String`; exceptions crossing component boundaries are the
  inductive `PyExc`.
-/

/-- JSON-like values: request params, results and error payloads. -/
inductive JValue : Type where
  | null : JValue
  | bool : Bool → JValue
  | num : Int → JValue
  | str : String → JValue
  | arr : List JValue → JValue
  | obj : List (String × JValue) → JValue

/-- First-match association lookup, modelling Python dict indexing on the
parsed JSON objects used here (their keys are unique). -/
def jlookup : List (String × JValue) → String → Option JValue
  | [], _ => none
  | (k, v) :: rest, key => if k = key then some v else jlookup rest key

namespace Base64

/-- The standard base64 alphabet used by Python `base64.b64encode`. -/
def alphabet : List Char :=
  "ABCDEFGHIJKLMNOPQRSTUVWXYZabcdefghijklmnopqrstuvwxyz0123456789+/".data

/-- Alphabet character for a 6-bit group. -/
def b64Char (n : Nat) : Char := alphabet.getD n 'A'

/-- Index of a character in the alphabet (`none` when it is not a base64
digit). -/
def b64Val (c : Char) : Option Nat := alphabet.findIdx? (· = c)

/-- `base64.b64encode` on a byte list (bytes are naturals below 256). -/
def encodeBytes : List Nat → List Char
  | [] => []
  | [b1] => [b64Char (b1 / 4), b64Char (b1 % 4 * 16), '=', '=']
  | [b1, b2] =>
      [b64Char (b1 / 4), b64Char (b1 % 4 * 16 + b2 / 16), b64Char (b2 % 16 * 4), '=']
  | b1 :: b2 :: b3 :: rest =>
      b64Char (b1 / 4) :: b64Char (b1 % 4 * 16 + b2 / 16) ::
      b64Char (b2 % 16 * 4 + b3 / 64) :: b64Char (b3 % 64) :: encodeBytes rest

/-- `base64.b64decode` on the inputs reachable in this code base: padding
only at the very end (enforced beforehand by `validate_base64`), quads of
alphabet characters otherwise.  Returns `none` where Python raises
`binascii.Error`. -/
def decodeBytes : List Char → Option (List Nat)
  | [] => some []
  | c1 :: c2 :: c3 :: c4 :: rest =>
      if rest = [] ∧ c3 = '=' ∧ c4 = '=' then
        match b64Val c1, b64Val c2 with
        | some v1, some v2 => some [v1 * 4 + v2 / 16]
        | _, _ => none
      else if rest = [] ∧ c4 = '=' then
        match b64Val c1, b64Val c2, b64Val c3 with
        | some v1, some v2, some v3 =>
            some [v1 * 4 + v2 / 16, v2 % 16 * 16 + v3 / 4]
        | _, _, _ => none
      else
        match b64Val c1, b64Val c2, b64Val c3, b64Val c4 with
        | some v1, some v2, some v3, some v4 =>
            (decodeBytes rest).map
              (fun bs => (v1 * 4 + v2 / 16) :: (v2 % 16 * 16 + v3 / 4) :: (v3 % 4 * 64 + v4) :: bs)
        | _, _, _, _ => none
  | _ => none

/-- Membership in the character class `[A-Za-z0-9+/]` of the validation
regular expression. -/
def isAlphaB64 (c : Char) : Bool :=
  ('A' ≤ c && c ≤ 'Z') || ('a' ≤ c && c ≤ 'z') || ('0' ≤ c && c ≤ '9') ||
  c = '+' || c = '/'

/-- Matcher for the anchored pattern `[A-Za-z0-9+/]*={0,2}`
(`Base64Service.BASE64_PATTERN`): a maximal run of alphabet characters
followed by at most two padding characters ending the string. -/
def b64pattern (cs : List Char) : Bool :=
  let xs := cs.takeWhile isAlphaB64
  let ys := cs.drop xs.length
  ys.all (· = '=') && decide (ys.length ≤ 2)

/-- Membership in the full character set `[A-Za-z0-9+/=]`. -/
def isB64Char (c : Char) : Bool := isAlphaB64 c || c = '='

end Base64

namespace Base64Service

/-- Maximum text length accepted by `encode` (1 MiB of characters). -/
def MAX_TEXT_LENGTH : Nat := 1024 * 1024

/-- `Base64Service.validate_base64`: format validation returning
(valid?, error message).  The final step of the source tries
`base64.b64decode(s, validate=True)`; it is modelled by `decodeBytes`. -/
def validate_base64 (b64s : String) : Bool × String :=
  if b64s.data.isEmpty then (false, "Base64 string cannot be empty")
  else if b64s.data.length % 4 ≠ 0 then
    (false, "Base64 string length must be multiple of 4, got " ++ toString b64s.data.length)
  else if ¬ Base64.b64pattern b64s.data then
    (false, "Base64 string contains invalid characters")
  else if b64s.data.count '=' > 2 then
    (false, "Base64 string has too many padding characters")
  else if b64s.data.count '=' > 0 ∧
      ¬ (List.replicate (b64s.data.count '=') '=').isSuffixOf b64s.data then
    (false, "Padding characters must be at the end")
  else if b64s.data.count '=' > 0 ∧
      '=' ∈ b64s.data.take (b64s.data.length - b64s.data.count '=') then
    (false, "Padding characters can only appear at the end")
  else if (Base64.decodeBytes b64s.data).isNone then
    (false, "Base64 string format is invalid")
  else (true, "")

/-- `Base64Service.is_valid_text`.  The `isinstance` and UTF-8
encodability checks of the source cannot fail for a Lean `String`
(always a sequence of Unicode scalar values, unlike a Python `str`,
which may contain lone surrogates); only the length cap remains. -/
def is_valid_text (text : String) : Bool × String :=
  if text.length = 0 then (true, "")
  else if text.length > MAX_TEXT_LENGTH then
    (false, "Text too long: " ++ toString text.length ++
      " characters (max: " ++ toString MAX_TEXT_LENGTH ++ ")")
  else (true, "")

end Base64Service

namespace Utf8

/-- UTF-8 encoding of one Unicode scalar value (`str.encode` on one
character). -/
def encodeCodepoint (n : Nat) : List Nat :=
  if n < 0x80 then [n]
  else if n < 0x800 then [0xC0 + n / 64, 0x80 + n % 64]
  else if n < 0x10000 then [0xE0 + n / 4096, 0x80 + n / 64 % 64, 0x80 + n % 64]
  else [0xF0 + n / 262144, 0x80 + n / 4096 % 64, 0x80 + n / 64 % 64, 0x80 + n % 64]

/-- UTF-8 encoding of a character sequence. -/
def encodeChars : List Char → List Nat
  | [] => []
  | c :: cs => encodeCodepoint c.toNat ++ encodeChars cs

/-- `text.encode("utf-8")` as a byte list. -/
def encodeString (s : String) : List Nat := encodeChars s.data

/-- Continuation byte test: `0x80 ≤ b < 0xC0`. -/
def isCont (b : Nat) : Bool := 0x80 ≤ b && b < 0xC0

/-- Strict UTF-8 decoding to scalar values (`bytes.decode("utf-8")`),
rejecting truncated sequences, stray continuations, overlong forms,
surrogates and values beyond U+10FFFF; `none` where Python raises
`UnicodeDecodeError`. -/
def decodeBytesUtf8 : List Nat → Option (List Nat)
  | [] => some []
  | b :: rest =>
      if b < 0x80 then (decodeBytesUtf8 rest).map (b :: ·)
      else if b < 0xC2 then none
      else
        match rest with
        | [] => none
        | b2 :: rest2 =>
            if isCont b2 then
              if b < 0xE0 then
                (decodeBytesUtf8 rest2).map (((b - 0xC0) * 64 + (b2 - 0x80)) :: ·)
              else
                match rest2 with
                | [] => none
                | b3 :: rest3 =>
                    if isCont b3 then
                      if b < 0xF0 then
                        if (b - 0xE0) * 4096 + (b2 - 0x80) * 64 + (b3 - 0x80) < 0x800 ∨
                            (0xD800 ≤ (b - 0xE0) * 4096 + (b2 - 0x80) * 64 + (b3 - 0x80) ∧
                              (b - 0xE0) * 4096 + (b2 - 0x80) * 64 + (b3 - 0x80) ≤ 0xDFFF) then
                          none
                        else
                          (decodeBytesUtf8 rest3).map
                            (((b - 0xE0) * 4096 + (b2 - 0x80) * 64 + (b3 - 0x80)) :: ·)
                      else
                        match rest3 with
                        | [] => none
                        | b4 :: rest4 =>
                            if isCont b4 then
                              if b < 0xF5 then
                                if (b - 0xF0) * 262144 + (b2 - 0x80) * 4096 +
                                      (b3 - 0x80) * 64 + (b4 - 0x80) < 0x10000 ∨
                                    0x10FFFF < (b - 0xF0) * 262144 + (b2 - 0x80) * 4096 +
                                      (b3 - 0x80) * 64 + (b4 - 0x80) then
                                  none
                                else
                                  (decodeBytesUtf8 rest4).map
                                    (((b - 0xF0) * 262144 + (b2 - 0x80) * 4096 +
                                      (b3 - 0x80) * 64 + (b4 - 0x80)) :: ·)
                              else none
                            else none
                    else none
            else none

end Utf8

namespace Base64Service

/-- `Base64Service.encode`: validate, UTF-8 encode, base64 encode.
Errors are the `ValueError` messages of the source. -/
def encode (text : String) : Except String String :=
  match is_valid_text text with
  | (false, msg) => .error ("Invalid text input: " ++ msg)
  | (true, _) => .ok (String.mk (Base64.encodeBytes (Utf8.encodeString text)))

/-- `Base64Service.decode`: validate, base64 decode, UTF-8 decode. -/
def decode (b64s : String) : Except String String :=
  match validate_base64 b64s with
  | (false, msg) => .error ("Invalid base64 input: " ++ msg)
  | (true, _) =>
      match Base64.decodeBytes b64s.data with
      | none => .error "Base64 decoding failed: Invalid base64 format"
      | some bytes =>
          match Utf8.decodeBytesUtf8 bytes with
          | none => .error "Text decoding failed: Invalid UTF-8 sequence"
          | some cps => .ok (String.mk (cps.map Char.ofNat))

end Base64Service

/-- `MCPError` (`models/mcp_models.py`): code, message, optional data. -/
structure MCPError : Type where
  code : Int
  message : String
  data : Option JValue := none

/-- `MCPRequest` (`models/mcp_models.py`). -/
structure MCPRequest : Type where
  jsonrpc : String := "2.0"
  id : JValue := .null
  method : String := ""
  params : JValue := .obj []

/-- `MCPResponse` (`models/mcp_models.py`): optional result, optional
error. -/
structure MCPResponse : Type where
  jsonrpc : String := "2.0"
  id : JValue := .null
  result : Option JValue := none
  error : Option MCPError := none

/-- `ToolResult` (`models/mcp_models.py`). -/
structure ToolResult : Type where
  content : String
  isError : Bool := false
  mimeType : Option String := none

/-- The `content` entry of `ToolResult.to_dict`: a one-element list with
type/text (and mimeType when set). -/
def ToolResult.contentJson (r : ToolResult) : JValue :=
  match r.mimeType with
  | some m => .arr [.obj [("type", .str "text"), ("text", .str r.content),
      ("mimeType", .str m)]]
  | none => .arr [.obj [("type", .str "text"), ("text", .str r.content)]]

/-- `ToolResult.to_dict`. -/
def ToolResult.to_dict (r : ToolResult) : JValue :=
  .obj [("content", r.contentJson), ("isError", .bool r.isError)]

namespace MCPErrorCodes

def PARSE_ERROR : Int := -32700
def INVALID_REQUEST : Int := -32600
def METHOD_NOT_FOUND : Int := -32601
def INVALID_PARAMS : Int := -32602
def INTERNAL_ERROR : Int := -32603
def INVALID_BASE64 : Int := -1001
def ENCODING_ERROR : Int := -1002
def DECODING_ERROR : Int := -1003
def TOOL_NOT_FOUND : Int := -1004

end MCPErrorCodes

/-- `BASE64_ENCODE_TOOL.to_dict()`: the registered encode tool
definition. -/
def BASE64_ENCODE_TOOL : JValue :=
  .obj [("name", .str "base64_encode"),
    ("description", .str "将文本字符串编码为base64格式"),
    ("inputSchema", .obj [("type", .str "object"),
      ("properties", .obj [("text", .obj [("type", .str "string"),
        ("description", .str "要编码的文本字符串")])]),
      ("required", .arr [.str "text"])])]

/-- `BASE64_DECODE_TOOL.to_dict()`: the registered decode tool
definition. -/
def BASE64_DECODE_TOOL : JValue :=
  .obj [("name", .str "base64_decode"),
    ("description", .str "将base64字符串解码为文本"),
    ("inputSchema", .obj [("type", .str "object"),
      ("properties", .obj [("base64_string", .obj [("type", .str "string"),
        ("description", .str "要解码的base64字符串")])]),
      ("required", .arr [.str "base64_string"])])]

/-- Python exceptions crossing component boundaries in this core. -/
inductive PyExc : Type where
  | valueError (msg : String)
  | typeError (msg : String)

namespace ErrorHandler

/-- `ErrorHandler.create_error` (logging side effect dropped). -/
def create_error (code : Int) (message : String) (data : Option JValue) : MCPError :=
  ⟨code, message, data⟩

/-- `ErrorHandler.create_invalid_params_error`. -/
def create_invalid_params_error (details : String) : MCPError :=
  create_error MCPErrorCodes.INVALID_PARAMS "Invalid params"
    (some (.obj [("details", .str details)]))

/-- `ErrorHandler.create_internal_error`. -/
def create_internal_error (details : String) : MCPError :=
  create_error MCPErrorCodes.INTERNAL_ERROR "Internal error"
    (some (.obj [("details", .str details)]))

/-- `ErrorHandler.create_method_not_found_error`. -/
def create_method_not_found_error (method : String) : MCPError :=
  create_error MCPErrorCodes.METHOD_NOT_FOUND "Method not found"
    (some (.obj [("method", .str method)]))

/-- `ErrorHandler.handle_exception` with empty context, restricted to the
exception kinds that the handler layer can raise: `ValueError` and
`TypeError` both map to invalid-params errors. -/
def handle_exception : PyExc → MCPError
  | .valueError msg => create_invalid_params_error msg
  | .typeError msg => create_invalid_params_error ("Type error: " ++ msg)

end ErrorHandler

namespace MCPProtocolHandler

/-- Keys of `self.tools` in registration order (`_register_tools`). -/
def toolNames : List String := ["base64_encode", "base64_decode"]

/-- `MCPProtocolHandler._validate_request`: jsonrpc must be "2.0",
method a non-empty string, params a dict or None. -/
def _validate_request (req : MCPRequest) : Bool :=
  if req.jsonrpc ≠ "2.0" then false
  else if req.method = "" then false
  else
    match req.params with
    | .null => true
    | .obj _ => true
    | _ => false

/-- `MCPProtocolHandler._handle_list_tools`. -/
def _handle_list_tools (req : MCPRequest) : MCPResponse :=
  { id := req.id,
    result := some (.obj [("tools", .arr [BASE64_ENCODE_TOOL, BASE64_DECODE_TOOL])]) }

/-- Helper for the substring test: does `pat` occur in the list, scanning
left to right. -/
def containsAux (pat : List Char) : List Char → Bool
  | [] => pat.isEmpty
  | c :: rest => pat.isPrefixOf (c :: rest) || containsAux pat rest

/-- Python `"text" in s` for a `str` operand: substring test. -/
def strContains (s pat : String) : Bool := containsAux pat.data s.data

/-- Python `x in xs` for a list operand, where `x` is the string literal
key: only string elements can compare equal. -/
def listContainsStr (xs : List JValue) (s : String) : Bool :=
  xs.any (fun v => match v with | .str t => t = s | _ => false)

/-- `MCPProtocolHandler._execute_base64_encode`.  The `arguments` value
is any JSON value (the source indexes it like a dict); non-dict shapes
reproduce the Python membership/indexing behaviour. -/
def _execute_base64_encode (args : JValue) : Except PyExc ToolResult :=
  match args with
  | .obj kvs =>
      match jlookup kvs "text" with
      | none => .error (.valueError "Missing required parameter: text")
      | some (.str text) =>
          match Base64Service.encode text with
          | .error msg => .error (.valueError msg)
          | .ok encoded => .ok ⟨encoded, false, some "text/plain"⟩
      | some _ => .error (.valueError "Parameter \x27text\x27 must be a string")
  | .str s =>
      if strContains s "text" then .error (.typeError "string indices must be integers")
      else .error (.valueError "Missing required parameter: text")
  | .arr xs =>
      if listContainsStr xs "text" then
        .error (.typeError "list indices must be integers or slices, not str")
      else .error (.valueError "Missing required parameter: text")
  | _ => .error (.typeError "argument of type is not iterable")

/-- `MCPProtocolHandler._execute_base64_decode`. -/
def _execute_base64_decode (args : JValue) : Except PyExc ToolResult :=
  match args with
  | .obj kvs =>
      match jlookup kvs "base64_string" with
      | none => .error (.valueError "Missing required parameter: base64_string")
      | some (.str b64s) =>
          match Base64Service.decode b64s with
          | .error msg => .error (.valueError msg)
          | .ok decoded => .ok ⟨decoded, false, some "text/plain"⟩
      | some _ => .error (.valueError "Parameter \x27base64_string\x27 must be a string")
  | .str s =>
      if strContains s "base64_string" then
        .error (.typeError "string indices must be integers")
      else .error (.valueError "Missing required parameter: base64_string")
  | .arr xs =>
      if listContainsStr xs "base64_string" then
        .error (.typeError "list indices must be integers or slices, not str")
      else .error (.valueError "Missing required parameter: base64_string")
  | _ => .error (.typeError "argument of type is not iterable")

/-- `MCPProtocolHandler._call_tool`. -/
def _call_tool (toolName : String) (args : JValue) : Except PyExc ToolResult :=
  if toolName = "base64_encode" then _execute_base64_encode args
  else if toolName = "base64_decode" then _execute_base64_decode args
  else .error (.valueError ("Unknown tool: " ++ toolName))

/-- `MCPProtocolHandler._handle_call_tool`.  A raised exception escapes
to the caller (`handle_request` catches it); the source checks the
`name` membership on `request.params`, which raises `TypeError` when
params is `None`. -/
def _handle_call_tool (req : MCPRequest) : Except PyExc MCPResponse :=
  match req.params with
  | .obj kvs =>
      match jlookup kvs "name" with
      | none =>
          .ok { id := req.id,
                error := some { code := MCPErrorCodes.INVALID_PARAMS,
                                message := "Missing required parameter: name" } }
      | some (.str toolName) =>
          if toolName ∈ toolNames then
            match _call_tool toolName ((jlookup kvs "arguments").getD (.obj [])) with
            | .ok result =>
                .ok { id := req.id,
                      result := some (.obj [("content", result.contentJson),
                        ("isError", .bool result.isError)]) }
            | .error (.valueError msg) =>
                .ok { id := req.id,
                      error := some { code := MCPErrorCodes.INVALID_PARAMS,
                                      message := msg } }
            | .error e =>
                .ok { id := req.id, error := some (ErrorHandler.handle_exception e) }
          else
            .ok { id := req.id,
                  error := some { code := MCPErrorCodes.TOOL_NOT_FOUND,
                                  message := "Tool \x27" ++ toolName ++ "\x27 not found" } }
      | some _ =>
          -- a non-string `params.name` is never a key of the registry
          -- dict, so the lookup fails the same way
          .ok { id := req.id,
                error := some { code := MCPErrorCodes.TOOL_NOT_FOUND,
                                message := "Tool not found" } }
  | _ => .error (.typeError "argument of type \x27NoneType\x27 is not iterable")

/-- `MCPProtocolHandler._handle_initialize` (named `handleInit` here). -/
def handleInit (req : MCPRequest) : MCPResponse :=
  { id := req.id,
    result := some (.obj [("protocolVersion", .str "2024-11-05"),
      ("capabilities", .obj [("tools", .obj [])]),
      ("serverInfo", .obj [("name", .str "mcp-base64-server"),
        ("version", .str "1.0.0")])]) }

/-- `MCPProtocolHandler._handle_ping`: empty result object. -/
def _handle_ping (req : MCPRequest) : MCPResponse :=
  { id := req.id, result := some (.obj []) }

/-- `MCPProtocolHandler.handle_request`: validate, route by method,
catch escaped exceptions via the error handler (logging and metrics
side effects dropped). -/
def handle_request (req : MCPRequest) : MCPResponse :=
  if ¬ _validate_request req then
    { id := req.id,
      error := some { code := MCPErrorCodes.INVALID_REQUEST,
                      message := "Invalid request format" } }
  else if req.method = "tools/list" then _handle_list_tools req
  else if req.method = "tools/call" then
    match _handle_call_tool req with
    | .ok resp => resp
    | .error e => { id := req.id, error := some (ErrorHandler.handle_exception e) }
  else if req.method = "initialize" then handleInit req
  else if req.method = "ping" then _handle_ping req
  else
    { id := req.id,
      error := some { code := MCPErrorCodes.METHOD_NOT_FOUND,
                      message := "Method \x27" ++ req.method ++ "\x27 not found" } }

end MCPProtocolHandler

namespace Transport

/-- `Transport._handle_request` (`transports/transport_interface.py`):
with no registered handler every request is answered with an internal
error; with a handler the request is delegated. -/
def handle_request (handler : Option (MCPRequest → MCPResponse))
    (req : MCPRequest) : MCPResponse :=
  match handler with
  | none =>
      { id := req.id,
        error := some (ErrorHandler.create_internal_error "No request handler registered") }
  | some h => h req

end Transport

/-- Fixture: a `tools/call` request invoking `base64_encode` on `t`. -/
def encodeReq (rid : JValue) (t : String) : MCPRequest :=
  { jsonrpc := "2.0", id := rid, method := "tools/call",
    params := .obj [("name", .str "base64_encode"),
      ("arguments", .obj [("text", .str t)])] }

/-- Fixture: a `tools/call` request invoking `base64_decode` on `s`. -/
def decodeReq (rid : JValue) (s : String) : MCPRequest :=
  { jsonrpc := "2.0", id := rid, method := "tools/call",
    params := .obj [("name", .str "base64_decode"),
      ("arguments", .obj [("base64_string", .str s)])] }

/-- Fixture: the successful `tools/call` response carrying text `s`. -/
def toolOkResponse (rid : JValue) (s : String) : MCPResponse :=
  { jsonrpc := "2.0", id := rid,
    result := some (.obj [("content", .arr [.obj [("type", .str "text"),
      ("text", .str s), ("mimeType", .str "text/plain")]]),
      ("isError", .bool false)]),
    error := none }


/-! Helper lemmas about the protocol handler. -/

/-- Every normally-returned `_handle_call_tool` response echoes the
request id and carries exactly one of result/error. -/
theorem callTool_ok_shape {req : MCPRequest} {r : MCPResponse}
    (h : MCPProtocolHandler._handle_call_tool req = .ok r) :
    r.id = req.id ∧
      ((r.result.isSome = true ∧ r.error = none) ∨
        (r.result = none ∧ r.error.isSome = true)) := by
  unfold MCPProtocolHandler._handle_call_tool at h
  split at h
  all_goals try split at h
  all_goals try split at h
  all_goals try split at h
  all_goals cases h
  all_goals simp

/-- C2: for every request envelope, the response produced by
`MCPProtocolHandler.handle_request` contains exactly one of
result/error: result present implies error absent, error present
implies result absent, and never are both absent. -/
theorem handle_request_exactly_one_result_or_error (req : MCPRequest) :
    (((MCPProtocolHandler.handle_request req).result.isSome = true ∧
        (MCPProtocolHandler.handle_request req).error = none) ∨
      ((MCPProtocolHandler.handle_request req).result = none ∧
        (MCPProtocolHandler.handle_request req).error.isSome = true)) := by
  unfold MCPProtocolHandler.handle_request
  split
  · right; simp
  · split
    · left; simp [MCPProtocolHandler._handle_list_tools]
    · split
      · split
        · rename_i r heq
          exact (callTool_ok_shape heq).2
        · right; simp
      · split
        · left; simp [MCPProtocolHandler.handleInit]
        · split
          · left; simp [MCPProtocolHandler._handle_ping]
          · right; simp

/-- C3: for every request envelope, well-formed or not, the id of the
response returned by `MCPProtocolHandler.handle_request` equals the
request's id exactly (including null). -/
theorem handle_request_preserves_id (req : MCPRequest) :
    (MCPProtocolHandler.handle_request req).id = req.id := by
  unfold MCPProtocolHandler.handle_request
  split
  · simp
  · split
    · simp [MCPProtocolHandler._handle_list_tools]
    · split
      · split
        · rename_i r heq
          exact (callTool_ok_shape heq).1
        · simp
      · split
        · simp [MCPProtocolHandler.handleInit]
        · split
          · simp [MCPProtocolHandler._handle_ping]
          · simp

/-- C6: for every well-formed envelope with method "ping", the response
has result equal to the empty object (not a string) and no error. -/
theorem ping_returns_empty_object (req : MCPRequest)
    (hv : MCPProtocolHandler._validate_request req = true)
    (hm : req.method = "ping") :
    (MCPProtocolHandler.handle_request req).result = some (.obj []) ∧
      (MCPProtocolHandler.handle_request req).error = none := by
  unfold MCPProtocolHandler.handle_request
  rw [if_neg (by simp [hv]), if_neg (by rw [hm]; decide),
    if_neg (by rw [hm]; decide), if_neg (by rw [hm]; decide), if_pos hm]
  simp [MCPProtocolHandler._handle_ping]

/-- Witness for C6 at a concrete ping request. -/
theorem ping_returns_empty_object_witness :
    (MCPProtocolHandler.handle_request
        { jsonrpc := "2.0", id := .num 7, method := "ping",
          params := .obj [] }).result = some (.obj []) ∧
      (MCPProtocolHandler.handle_request
        { jsonrpc := "2.0", id := .num 7, method := "ping",
          params := .obj [] }).error = none :=
  ping_returns_empty_object
    { jsonrpc := "2.0", id := .num 7, method := "ping", params := .obj [] }
    rfl rfl

/-- C8: the `tools/call` request invoking base64_encode on
"Hello, World!" yields result content text "SGVsbG8sIFdvcmxkIQ==", and
the `tools/call` request invoking base64_decode on that string yields
result content text "Hello, World!". -/
theorem hello_world_scenarios :
    MCPProtocolHandler.handle_request (encodeReq (.num 1) "Hello, World!") =
        toolOkResponse (.num 1) "SGVsbG8sIFdvcmxkIQ==" ∧
      MCPProtocolHandler.handle_request (decodeReq (.num 2) "SGVsbG8sIFdvcmxkIQ==") =
        toolOkResponse (.num 2) "Hello, World!" :=
  ⟨rfl, rfl⟩

/-- C9: with no registered request handler, the transport's internal
dispatch answers every request with an InternalError (-32603) response
whose details say no request handler is registered, preserving the
request id. -/
theorem transport_no_handler_internal_error (req : MCPRequest) :
    Transport.handle_request none req =
      { jsonrpc := "2.0", id := req.id, result := none,
        error := some { code := -32603, message := "Internal error",
                        data := some (.obj [("details",
                          .str "No request handler registered")]) } } :=
  rfl

/-- Counterexample to C7 as stated: for the unknown method "foo/bar"
the MethodNotFound error carries the method name only in its message;
its data field is `none`, so the data field does not carry the
offending method name. -/
theorem method_not_found_data_is_absent :
    (MCPProtocolHandler.handle_request
        { jsonrpc := "2.0", id := .num 3, method := "foo/bar",
          params := .obj [] }).error =
      some { code := -32601, message := "Method \x27foo/bar\x27 not found",
             data := none } :=
  rfl

/-- C7 (amended): for every well-formed envelope whose method is none of
initialize, tools/list, tools/call, ping, the response is a
MethodNotFound error (-32601) whose message carries the offending
method name; the error's data field is absent. -/
theorem unknown_method_yields_method_not_found (req : MCPRequest)
    (hv : MCPProtocolHandler._validate_request req = true)
    (hm : req.method ∉ ["tools/list", "tools/call", "initialize", "ping"]) :
    MCPProtocolHandler.handle_request req =
      { jsonrpc := "2.0", id := req.id, result := none,
        error := some { code := MCPErrorCodes.METHOD_NOT_FOUND,
                        message := "Method \x27" ++ req.method ++ "\x27 not found",
                        data := none } } := by
  simp only [List.mem_cons, List.mem_singleton, not_or] at hm
  obtain ⟨h1, h2, h3, h4, -⟩ := hm
  unfold MCPProtocolHandler.handle_request
  rw [if_neg (by simp [hv]), if_neg h1, if_neg h2, if_neg h3, if_neg h4]

/-- Witness for C7 (amended) at a concrete unknown-method request. -/
theorem unknown_method_yields_method_not_found_witness :
    MCPProtocolHandler.handle_request
        { jsonrpc := "2.0", id := .str "w", method := "resources/list",
          params := .null } =
      { jsonrpc := "2.0", id := .str "w", result := none,
        error := some { code := MCPErrorCodes.METHOD_NOT_FOUND,
                        message := "Method \x27resources/list\x27 not found",
                        data := none } } :=
  unknown_method_yields_method_not_found
    { jsonrpc := "2.0", id := .str "w", method := "resources/list",
      params := .null }
    rfl (by decide)

/-- Plumbing: the full handler response to an `encodeReq` is determined
by `Base64Service.encode`. -/
theorem handle_encodeReq (rid : JValue) (t : String) :
    MCPProtocolHandler.handle_request (encodeReq rid t) =
      match Base64Service.encode t with
      | .ok e => toolOkResponse rid e
      | .error msg =>
          { jsonrpc := "2.0", id := rid, result := none,
            error := some { code := MCPErrorCodes.INVALID_PARAMS,
                            message := msg, data := none } } := by
  cases henc : Base64Service.encode t with
  | ok e =>
      simp [MCPProtocolHandler.handle_request, MCPProtocolHandler._validate_request,
        MCPProtocolHandler._handle_call_tool, MCPProtocolHandler._call_tool,
        MCPProtocolHandler._execute_base64_encode, encodeReq, toolOkResponse,
        jlookup, MCPProtocolHandler.toolNames, henc, ToolResult.contentJson]
  | error msg =>
      simp [MCPProtocolHandler.handle_request, MCPProtocolHandler._validate_request,
        MCPProtocolHandler._handle_call_tool, MCPProtocolHandler._call_tool,
        MCPProtocolHandler._execute_base64_encode, encodeReq,
        jlookup, MCPProtocolHandler.toolNames, henc]

/-- Plumbing: the full handler response to a `decodeReq` is determined
by `Base64Service.decode`. -/
theorem handle_decodeReq (rid : JValue) (s : String) :
    MCPProtocolHandler.handle_request (decodeReq rid s) =
      match Base64Service.decode s with
      | .ok d => toolOkResponse rid d
      | .error msg =>
          { jsonrpc := "2.0", id := rid, result := none,
            error := some { code := MCPErrorCodes.INVALID_PARAMS,
                            message := msg, data := none } } := by
  cases hdec : Base64Service.decode s with
  | ok d =>
      simp [MCPProtocolHandler.handle_request, MCPProtocolHandler._validate_request,
        MCPProtocolHandler._handle_call_tool, MCPProtocolHandler._call_tool,
        MCPProtocolHandler._execute_base64_decode, decodeReq, toolOkResponse,
        jlookup, MCPProtocolHandler.toolNames, hdec, ToolResult.contentJson]
  | error msg =>
      simp [MCPProtocolHandler.handle_request, MCPProtocolHandler._validate_request,
        MCPProtocolHandler._handle_call_tool, MCPProtocolHandler._call_tool,
        MCPProtocolHandler._execute_base64_decode, decodeReq,
        jlookup, MCPProtocolHandler.toolNames, hdec]

/-- C10: for every string of more than 1,048,576 characters
(MAX_TEXT_LENGTH), `Base64Service.encode` fails with the "Text too
long" ValueError, so a `tools/call` base64_encode request with such
text is answered with an InvalidParams (-32602) error instead of an
encoded result. -/
theorem oversized_text_rejected (rid : JValue) (t : String)
    (h : t.length > 1048576) :
    Base64Service.MAX_TEXT_LENGTH = 1048576 ∧
      Base64Service.encode t =
        .error ("Invalid text input: " ++ ("Text too long: " ++ toString t.length ++
          " characters (max: " ++ toString Base64Service.MAX_TEXT_LENGTH ++ ")")) ∧
      (MCPProtocolHandler.handle_request (encodeReq rid t)).error =
        some { code := -32602,
               message := "Invalid text input: " ++ ("Text too long: " ++
                 toString t.length ++ " characters (max: " ++
                 toString Base64Service.MAX_TEXT_LENGTH ++ ")"),
               data := none } ∧
      (MCPProtocolHandler.handle_request (encodeReq rid t)).result = none := by
  have henc : Base64Service.encode t =
      .error ("Invalid text input: " ++ ("Text too long: " ++ toString t.length ++
        " characters (max: " ++ toString Base64Service.MAX_TEXT_LENGTH ++ ")")) := by
    unfold Base64Service.encode Base64Service.is_valid_text
    rw [if_neg (by omega), if_pos (by
      simp only [Base64Service.MAX_TEXT_LENGTH]; omega)]
  refine ⟨rfl, henc, ?_, ?_⟩ <;> (rw [handle_encodeReq, henc]; try rfl)


/-- Witness for C10 at a concrete 1,048,577-character string. -/
theorem oversized_text_rejected_witness :
    (String.mk (List.replicate 1048577 'a')).length > 1048576 ∧
      Base64Service.encode (String.mk (List.replicate 1048577 'a')) =
        .error ("Invalid text input: " ++ ("Text too long: " ++
          toString (String.mk (List.replicate 1048577 'a')).length ++
          " characters (max: " ++ toString Base64Service.MAX_TEXT_LENGTH ++ ")")) := by
  have hlen : (String.mk (List.replicate 1048577 'a')).length > 1048576 := by
    show (List.replicate 1048577 'a').length > 1048576
    rw [List.length_replicate]
    omega
  exact ⟨hlen,
    (oversized_text_rejected (.num 1) (String.mk (List.replicate 1048577 'a'))
      hlen).2.1⟩

/-- C4: for tools/call requests, (a) params lacking "name" yields
InvalidParams (-32602); (b) a name outside the registry yields
ToolNotFound (-1004); (c) base64_encode with the "text" argument
missing yields InvalidParams whose message mentions "text". -/
theorem tools_call_error_codes :
    (∀ (req : MCPRequest) (kvs : List (String × JValue)),
        req.jsonrpc = "2.0" → req.method = "tools/call" →
        req.params = .obj kvs → jlookup kvs "name" = none →
        (MCPProtocolHandler.handle_request req).error =
          some { code := -32602, message := "Missing required parameter: name",
                 data := none }) ∧
    (∀ (req : MCPRequest) (kvs : List (String × JValue)) (toolName : String),
        req.jsonrpc = "2.0" → req.method = "tools/call" →
        req.params = .obj kvs →
        jlookup kvs "name" = some (.str toolName) →
        toolName ∉ MCPProtocolHandler.toolNames →
        (MCPProtocolHandler.handle_request req).error =
          some { code := -1004,
                 message := "Tool \x27" ++ toolName ++ "\x27 not found",
                 data := none }) ∧
    (∀ (req : MCPRequest) (kvs args : List (String × JValue)),
        req.jsonrpc = "2.0" → req.method = "tools/call" →
        req.params = .obj kvs →
        jlookup kvs "name" = some (.str "base64_encode") →
        (jlookup kvs "arguments").getD (.obj []) = .obj args →
        jlookup args "text" = none →
        (MCPProtocolHandler.handle_request req).error =
          some { code := -32602, message := "Missing required parameter: text",
                 data := none } ∧
          MCPProtocolHandler.strContains "Missing required parameter: text" "text" = true) := by
  refine ⟨?_, ?_, ?_⟩
  · intro req kvs hj hm hp hn
    have hv : MCPProtocolHandler._validate_request req = true := by
      simp [MCPProtocolHandler._validate_request, hj, hm, hp]
    have hct : MCPProtocolHandler._handle_call_tool req =
        .ok { jsonrpc := "2.0", id := req.id, result := none,
              error := some { code := MCPErrorCodes.INVALID_PARAMS,
                              message := "Missing required parameter: name",
                              data := none } } := by
      simp only [MCPProtocolHandler._handle_call_tool, hp, hn]
    unfold MCPProtocolHandler.handle_request
    rw [if_neg (by simp [hv]), if_neg (by rw [hm]; decide), if_pos hm, hct]
    rfl
  · intro req kvs toolName hj hm hp hn hmem
    have hv : MCPProtocolHandler._validate_request req = true := by
      simp [MCPProtocolHandler._validate_request, hj, hm, hp]
    have hct : MCPProtocolHandler._handle_call_tool req =
        .ok { jsonrpc := "2.0", id := req.id, result := none,
              error := some { code := MCPErrorCodes.TOOL_NOT_FOUND,
                              message := "Tool \x27" ++ toolName ++ "\x27 not found",
                              data := none } } := by
      simp only [MCPProtocolHandler._handle_call_tool, hp, hn, if_neg hmem]
    unfold MCPProtocolHandler.handle_request
    rw [if_neg (by simp [hv]), if_neg (by rw [hm]; decide), if_pos hm, hct]
    rfl
  · intro req kvs args hj hm hp hn hargs htext
    have hv : MCPProtocolHandler._validate_request req = true := by
      simp [MCPProtocolHandler._validate_request, hj, hm, hp]
    have hcall : MCPProtocolHandler._call_tool "base64_encode"
        ((jlookup kvs "arguments").getD (.obj [])) =
        .error (.valueError "Missing required parameter: text") := by
      rw [hargs]
      simp only [MCPProtocolHandler._call_tool,
        MCPProtocolHandler._execute_base64_encode, htext]
      rfl
    have hct : MCPProtocolHandler._handle_call_tool req =
        .ok { jsonrpc := "2.0", id := req.id, result := none,
              error := some { code := MCPErrorCodes.INVALID_PARAMS,
                              message := "Missing required parameter: text",
                              data := none } } := by
      simp only [MCPProtocolHandler._handle_call_tool, hp, hn,
        if_pos (by decide : "base64_encode" ∈ MCPProtocolHandler.toolNames), hcall]
    refine ⟨?_, rfl⟩
    unfold MCPProtocolHandler.handle_request
    rw [if_neg (by simp [hv]), if_neg (by rw [hm]; decide), if_pos hm, hct]
    rfl

/-- Witness for C4 at three concrete tools/call requests. -/
theorem tools_call_error_codes_witness :
    (MCPProtocolHandler.handle_request
        { jsonrpc := "2.0", id := .num 1, method := "tools/call",
          params := .obj [("arguments", .obj [])] }).error =
      some { code := -32602, message := "Missing required parameter: name",
             data := none } ∧
    (MCPProtocolHandler.handle_request
        { jsonrpc := "2.0", id := .num 2, method := "tools/call",
          params := .obj [("name", .str "no_such_tool")] }).error =
      some { code := -1004, message := "Tool \x27no_such_tool\x27 not found",
             data := none } ∧
    (MCPProtocolHandler.handle_request
        { jsonrpc := "2.0", id := .num 3, method := "tools/call",
          params := .obj [("name", .str "base64_encode"),
            ("arguments", .obj [])] }).error =
      some { code := -32602, message := "Missing required parameter: text",
             data := none } :=
  ⟨tools_call_error_codes.1
      { jsonrpc := "2.0", id := .num 1, method := "tools/call",
        params := .obj [("arguments", .obj [])] }
      [("arguments", .obj [])] rfl rfl rfl rfl,
    tools_call_error_codes.2.1
      { jsonrpc := "2.0", id := .num 2, method := "tools/call",
        params := .obj [("name", .str "no_such_tool")] }
      [("name", .str "no_such_tool")] "no_such_tool" rfl rfl rfl rfl (by decide),
    (tools_call_error_codes.2.2
      { jsonrpc := "2.0", id := .num 3, method := "tools/call",
        params := .obj [("name", .str "base64_encode"), ("arguments", .obj [])] }
      [("name", .str "base64_encode"), ("arguments", .obj [])] [] rfl rfl rfl rfl
      rfl rfl).1⟩

/-! Helper lemmas about the base64 validation pattern. -/

/-- Dropping as many elements as the `takeWhile` prefix is `dropWhile`. -/
theorem drop_length_takeWhile (p : Char → Bool) :
    ∀ l : List Char, l.drop (l.takeWhile p).length = l.dropWhile p
  | [] => rfl
  | x :: xs => by
    by_cases h : p x
    · simp [List.takeWhile_cons, List.dropWhile_cons, h, drop_length_takeWhile p xs]
    · simp [List.takeWhile_cons, List.dropWhile_cons, h]

/-- Splitting a list at its maximal alphabet prefix. -/
theorem takeWhile_split (p : Char → Bool) (l : List Char) :
    l.takeWhile p ++ l.drop (l.takeWhile p).length = l := by
  rw [drop_length_takeWhile]
  exact List.takeWhile_append_dropWhile p l

/-- Every character of a string matching the base64 pattern lies in the
character set `[A-Za-z0-9+/=]`. -/
theorem b64pattern_mem {cs : List Char} (hp : Base64.b64pattern cs = true)
    {c : Char} (hc : c ∈ cs) : Base64.isB64Char c = true := by
  unfold Base64.b64pattern at hp
  simp only [Bool.and_eq_true, List.all_eq_true, decide_eq_true_eq] at hp
  obtain ⟨hall, _⟩ := hp
  rw [← takeWhile_split Base64.isAlphaB64 cs] at hc
  rcases List.mem_append.mp hc with hx | hy
  · have := List.mem_takeWhile_imp hx
    simp [Base64.isB64Char, this]
  · have h2 := hall _ hy
    subst h2
    decide

/-- In a string matching the base64 pattern, a padding character can
occur only in the final two positions. -/
theorem b64pattern_pad_last {cs : List Char} (hp : Base64.b64pattern cs = true)
    {i : Nat} (hi : cs.get? i = some '=') : cs.length ≤ i + 2 := by
  unfold Base64.b64pattern at hp
  simp only [Bool.and_eq_true, List.all_eq_true, decide_eq_true_eq] at hp
  obtain ⟨hall, hlen⟩ := hp
  by_cases hlt : i < (cs.takeWhile Base64.isAlphaB64).length
  · exfalso
    rw [← takeWhile_split Base64.isAlphaB64 cs, List.get?_append hlt] at hi
    have := List.mem_takeWhile_imp (List.get?_mem hi)
    simp [Base64.isAlphaB64] at this
  · have hdl : (cs.drop (cs.takeWhile Base64.isAlphaB64).length).length =
        cs.length - (cs.takeWhile Base64.isAlphaB64).length := List.length_drop _ _
    omega

/-- Counterexample to C5 as stated: the `tools/call` base64_decode
request with the invalid base64 input "abc" is answered with error code
-32602 (InvalidParams), which is not the InvalidBase64 code -1001. -/
theorem invalid_base64_answered_with_invalid_params :
    (MCPProtocolHandler.handle_request (decodeReq (.num 9) "abc")).error =
        some { code := -32602,
               message := "Invalid base64 input: Base64 string length must be multiple of 4, got 3",
               data := none } ∧
      (-32602 : Int) ≠ MCPErrorCodes.INVALID_BASE64 :=
  ⟨rfl, by decide⟩

/-- C5 (amended): `validate_base64` rejects the empty string, strings
whose length is not a multiple of 4, strings containing a character
outside `[A-Za-z0-9+/=]`, and strings with a padding character outside
the final two positions; a `tools/call` base64_decode request with any
input rejected by `validate_base64` is answered with an InvalidParams
error (-32602) carrying the validation message — not with the
InvalidBase64 code (-1001). -/
theorem validate_base64_rejections :
    ((Base64Service.validate_base64 "").1 = false) ∧
    (∀ s : String, s.length % 4 ≠ 0 → (Base64Service.validate_base64 s).1 = false) ∧
    (∀ (s : String) (c : Char), c ∈ s.data → Base64.isB64Char c = false →
      (Base64Service.validate_base64 s).1 = false) ∧
    (∀ (s : String) (i : Nat), i + 2 < s.length → s.data.get? i = some '=' →
      (Base64Service.validate_base64 s).1 = false) ∧
    (∀ (rid : JValue) (s : String), (Base64Service.validate_base64 s).1 = false →
      (MCPProtocolHandler.handle_request (decodeReq rid s)).error =
        some { code := -32602,
               message := "Invalid base64 input: " ++ (Base64Service.validate_base64 s).2,
               data := none } ∧
      (MCPProtocolHandler.handle_request (decodeReq rid s)).result = none) := by
  refine ⟨rfl, ?_, ?_, ?_, ?_⟩
  · intro s h
    have h2 : s.data.length % 4 ≠ 0 := h
    unfold Base64Service.validate_base64
    by_cases he : s.data.isEmpty
    · rw [if_pos he]
    · rw [if_neg he, if_pos h2]
  · intro s c hc hbad
    have hpat : ¬ Base64.b64pattern s.data = true :=
      fun hp => by rw [b64pattern_mem hp hc] at hbad; cases hbad
    unfold Base64Service.validate_base64
    by_cases he : s.data.isEmpty
    · rw [if_pos he]
    · rw [if_neg he]
      by_cases hl : s.data.length % 4 ≠ 0
      · rw [if_pos hl]
      · rw [if_neg hl, if_pos hpat]
  · intro s i hi hpad
    have hi2 : i + 2 < s.data.length := hi
    have hpat : ¬ Base64.b64pattern s.data = true :=
      fun hp => by have := b64pattern_pad_last hp hpad; omega
    unfold Base64Service.validate_base64
    by_cases he : s.data.isEmpty
    · rw [if_pos he]
    · rw [if_neg he]
      by_cases hl : s.data.length % 4 ≠ 0
      · rw [if_pos hl]
      · rw [if_neg hl, if_pos hpat]
  · intro rid s h
    have hdec : Base64Service.decode s =
        .error ("Invalid base64 input: " ++ (Base64Service.validate_base64 s).2) := by
      unfold Base64Service.decode
      rcases hv : Base64Service.validate_base64 s with ⟨b, m⟩
      rw [hv] at h
      simp only at h
      subst h
      simp [hv]
    constructor <;> (rw [handle_decodeReq, hdec]; try rfl)

/-- Witness for C5 (amended) at concrete rejected inputs. -/
theorem validate_base64_rejections_witness :
    ((Base64Service.validate_base64 "abc").1 = false) ∧
    ((Base64Service.validate_base64 "@@@@").1 = false) ∧
    ((Base64Service.validate_base64 "=AAA").1 = false) ∧
    (MCPProtocolHandler.handle_request (decodeReq (.num 4) "abc")).error =
      some { code := -32602,
             message := "Invalid base64 input: " ++ (Base64Service.validate_base64 "abc").2,
             data := none } :=
  ⟨validate_base64_rejections.2.1 "abc" (by decide),
    validate_base64_rejections.2.2.1 "@@@@" '@' (by decide) (by decide),
    validate_base64_rejections.2.2.2.1 "=AAA" 0 (by decide) (by decide),
    (validate_base64_rejections.2.2.2.2 (.num 4) "abc" (by decide)).1⟩

/-! Helper lemmas for the base64 round trip. -/

/-- Looking up an alphabet character recovers its 6-bit value. -/
theorem b64Val_b64Char {v : Nat} (h : v < 64) :
    Base64.b64Val (Base64.b64Char v) = some v := by
  have hall : ∀ v : Nat, v < 64 → Base64.b64Val (Base64.b64Char v) = some v := by decide
  exact hall v h

/-- Alphabet characters belong to the class `[A-Za-z0-9+/]`. -/
theorem b64Char_isAlpha {v : Nat} (h : v < 64) :
    Base64.isAlphaB64 (Base64.b64Char v) = true := by
  have hall : ∀ v : Nat, v < 64 → Base64.isAlphaB64 (Base64.b64Char v) = true := by decide
  exact hall v h

/-- Alphabet characters are not the padding character. -/
theorem b64Char_ne_pad {v : Nat} (h : v < 64) : Base64.b64Char v ≠ '=' := by
  have hall : ∀ v : Nat, v < 64 → Base64.b64Char v ≠ '=' := by decide
  exact hall v h

/-- Base64 round trip on byte lists: decoding an encoding recovers the
bytes. -/
theorem decodeBytes_encodeBytes :
    ∀ bs : List Nat, (∀ b ∈ bs, b < 256) →
      Base64.decodeBytes (Base64.encodeBytes bs) = some bs := by
  intro bs
  induction bs using Base64.encodeBytes.induct with
  | case1 => intro _; rfl
  | case2 b1 =>
      intro h
      have hb1 : b1 < 256 := h b1 (by simp)
      show Base64.decodeBytes [Base64.b64Char (b1 / 4), Base64.b64Char (b1 % 4 * 16),
        '=', '='] = some [b1]
      unfold Base64.decodeBytes
      rw [if_pos ⟨rfl, rfl, rfl⟩, b64Val_b64Char (by omega), b64Val_b64Char (by omega)]
      simp
      omega
  | case3 b1 b2 =>
      intro h
      have hb1 : b1 < 256 := h b1 (by simp)
      have hb2 : b2 < 256 := h b2 (by simp)
      show Base64.decodeBytes [Base64.b64Char (b1 / 4),
        Base64.b64Char (b1 % 4 * 16 + b2 / 16), Base64.b64Char (b2 % 16 * 4), '='] =
        some [b1, b2]
      unfold Base64.decodeBytes
      rw [if_neg (fun hcon => b64Char_ne_pad (v := b2 % 16 * 4) (by omega) hcon.2.1),
        if_pos ⟨rfl, rfl⟩, b64Val_b64Char (by omega), b64Val_b64Char (by omega),
        b64Val_b64Char (by omega)]
      simp
      omega
  | case4 b1 b2 b3 rest ih =>
      intro h
      have hb1 : b1 < 256 := h b1 (by simp)
      have hb2 : b2 < 256 := h b2 (by simp)
      have hb3 : b3 < 256 := h b3 (by simp)
      have hrest : ∀ b ∈ rest, b < 256 := fun b hb => h b (by simp [hb])
      have hIH := ih hrest
      show Base64.decodeBytes (Base64.b64Char (b1 / 4) ::
        Base64.b64Char (b1 % 4 * 16 + b2 / 16) ::
        Base64.b64Char (b2 % 16 * 4 + b3 / 64) :: Base64.b64Char (b3 % 64) ::
        Base64.encodeBytes rest) = some (b1 :: b2 :: b3 :: rest)
      unfold Base64.decodeBytes
      rw [if_neg (fun hcon => b64Char_ne_pad (v := b3 % 64) (by omega) hcon.2.2),
        if_neg (fun hcon => b64Char_ne_pad (v := b3 % 64) (by omega) hcon.2),
        b64Val_b64Char (by omega), b64Val_b64Char (by omega),
        b64Val_b64Char (by omega), b64Val_b64Char (by omega)]
      rw [hIH]
      simp
      omega

/-- A base64 encoding splits into alphabet characters followed by at
most two padding characters. -/
theorem encodeBytes_shape :
    ∀ bs : List Nat, (∀ b ∈ bs, b < 256) →
      ∃ xs ys, Base64.encodeBytes bs = xs ++ ys ∧
        (∀ c ∈ xs, Base64.isAlphaB64 c = true) ∧
        (∀ c ∈ ys, c = '=') ∧ ys.length ≤ 2 := by
  intro bs
  induction bs using Base64.encodeBytes.induct with
  | case1 =>
      intro _
      exact ⟨[], [], rfl, by simp, by simp, by simp⟩
  | case2 b1 =>
      intro h
      have hb1 : b1 < 256 := h b1 (by simp)
      refine ⟨[Base64.b64Char (b1 / 4), Base64.b64Char (b1 % 4 * 16)], ['=', '='],
        rfl, ?_, by simp, by simp⟩
      intro c hc
      rcases List.mem_pair.mp hc with rfl | rfl
      · exact b64Char_isAlpha (by omega)
      · exact b64Char_isAlpha (by omega)
  | case3 b1 b2 =>
      intro h
      have hb1 : b1 < 256 := h b1 (by simp)
      have hb2 : b2 < 256 := h b2 (by simp)
      refine ⟨[Base64.b64Char (b1 / 4), Base64.b64Char (b1 % 4 * 16 + b2 / 16),
        Base64.b64Char (b2 % 16 * 4)], ['='], rfl, ?_, by simp, by simp⟩
      intro c hc
      simp only [List.mem_cons, List.not_mem_nil, or_false] at hc
      rcases hc with rfl | rfl | rfl
      · exact b64Char_isAlpha (by omega)
      · exact b64Char_isAlpha (by omega)
      · exact b64Char_isAlpha (by omega)
  | case4 b1 b2 b3 rest ih =>
      intro h
      have hb1 : b1 < 256 := h b1 (by simp)
      have hb2 : b2 < 256 := h b2 (by simp)
      have hb3 : b3 < 256 := h b3 (by simp)
      obtain ⟨xs, ys, heq, hx, hy, hl⟩ := ih (fun b hb => h b (by simp [hb]))
      refine ⟨Base64.b64Char (b1 / 4) :: Base64.b64Char (b1 % 4 * 16 + b2 / 16) ::
        Base64.b64Char (b2 % 16 * 4 + b3 / 64) :: Base64.b64Char (b3 % 64) :: xs,
        ys, ?_, ?_, hy, hl⟩
      · show Base64.encodeBytes (b1 :: b2 :: b3 :: rest) = _
        rw [Base64.encodeBytes, heq]
        simp
      · intro c hc
        simp only [List.mem_cons] at hc
        rcases hc with rfl | rfl | rfl | rfl | hmem
        · exact b64Char_isAlpha (by omega)
        · exact b64Char_isAlpha (by omega)
        · exact b64Char_isAlpha (by omega)
        · exact b64Char_isAlpha (by omega)
        · exact hx c hmem

/-- The length of a base64 encoding is a multiple of 4. -/
theorem encodeBytes_length_mod4 : ∀ bs : List Nat,
    (Base64.encodeBytes bs).length % 4 = 0 := by
  intro bs
  induction bs using Base64.encodeBytes.induct with
  | case1 => rfl
  | case2 b1 => simp [Base64.encodeBytes]
  | case3 b1 b2 => simp [Base64.encodeBytes]
  | case4 b1 b2 b3 rest ih =>
      show (Base64.encodeBytes (b1 :: b2 :: b3 :: rest)).length % 4 = 0
      rw [Base64.encodeBytes]
      simp only [List.length_cons]
      omega

/-- A nonempty byte list has a nonempty base64 encoding. -/
theorem encodeBytes_ne_nil : ∀ bs : List Nat, bs ≠ [] →
    Base64.encodeBytes bs ≠ [] := by
  intro bs hne
  match bs with
  | [] => exact absurd rfl hne
  | [b1] => simp [Base64.encodeBytes]
  | [b1, b2] => simp [Base64.encodeBytes]
  | b1 :: b2 :: b3 :: rest => simp [Base64.encodeBytes]

/-- takeWhile over a prefix on which the predicate holds. -/
theorem takeWhile_all_append (p : Char → Bool) :
    ∀ (xs ys : List Char), (∀ c ∈ xs, p c = true) →
      (xs ++ ys).takeWhile p = xs ++ ys.takeWhile p
  | [], ys, _ => by simp
  | x :: xs, ys, h => by
      have hx : p x = true := h x (by simp)
      have ih := takeWhile_all_append p xs ys (fun c hc => h c (by simp [hc]))
      simp [List.takeWhile_cons, hx, ih]

/-- takeWhile of the alphabet class over padding is empty. -/
theorem takeWhile_pad_nil (ys : List Char) (hy : ∀ c ∈ ys, c = '=') :
    ys.takeWhile Base64.isAlphaB64 = [] := by
  cases ys with
  | nil => rfl
  | cons y ys =>
      have : y = '=' := hy y (by simp)
      subst this
      rw [List.takeWhile_cons, if_neg (by decide)]

/-- The base64 pattern holds for alphabet characters followed by at
most two padding characters. -/
theorem b64pattern_of_split (xs ys : List Char)
    (hx : ∀ c ∈ xs, Base64.isAlphaB64 c = true)
    (hy : ∀ c ∈ ys, c = '=') (hl : ys.length ≤ 2) :
    Base64.b64pattern (xs ++ ys) = true := by
  have htw : (xs ++ ys).takeWhile Base64.isAlphaB64 = xs := by
    rw [takeWhile_all_append _ xs ys hx, takeWhile_pad_nil ys hy, List.append_nil]
  simp only [Base64.b64pattern, htw, List.drop_left, Bool.and_eq_true,
    List.all_eq_true, decide_eq_true_eq]
  exact ⟨hy, hl⟩

/-- `validate_base64` accepts the encoding of any nonempty byte list. -/
theorem validate_base64_encodeBytes (bs : List Nat) (hne : bs ≠ [])
    (hlt : ∀ b ∈ bs, b < 256) :
    Base64Service.validate_base64 (String.mk (Base64.encodeBytes bs)) = (true, "") := by
  obtain ⟨xs, ys, heq, hx, hy, hl⟩ := encodeBytes_shape bs hlt
  have hpad : '=' ∉ xs := fun hmem => by
    have := hx '=' hmem
    simp [Base64.isAlphaB64] at this
  have hcount : (Base64.encodeBytes bs).count '=' = ys.length := by
    rw [heq, List.count_append]
    have h0 : xs.count '=' = 0 := List.count_eq_zero.mpr hpad
    have h1 : ys.count '=' = ys.length := List.count_eq_length.mpr (fun b hb => (hy b hb).symm)
    omega
  have hpat : Base64.b64pattern (Base64.encodeBytes bs) = true := by
    rw [heq]; exact b64pattern_of_split xs ys hx hy hl
  have hdecode : Base64.decodeBytes (Base64.encodeBytes bs) = some bs :=
    decodeBytes_encodeBytes bs hlt
  have hlen : (Base64.encodeBytes bs).length = xs.length + ys.length := by
    rw [heq, List.length_append]
  unfold Base64Service.validate_base64
  rw [if_neg (by simp [List.isEmpty_eq_false.mpr (encodeBytes_ne_nil bs hne)]),
    if_neg (by simp [encodeBytes_length_mod4 bs]),
    if_neg (by simp [hpat]),
    if_neg (by show ¬ (Base64.encodeBytes bs).count '=' > 2; omega),
    if_neg ?hsuffix,
    if_neg ?htake,
    if_neg (by simp [hdecode])]
  case hsuffix =>
    rintro ⟨-, hsuf⟩
    apply hsuf
    rw [hcount, heq]
    have hrep : List.replicate ys.length '=' = ys :=
      (List.eq_replicate_iff.mpr ⟨rfl, hy⟩).symm
    rw [hrep]
    exact List.isSuffixOf_iff_suffix.mpr (List.suffix_append xs ys)
  case htake =>
    rintro ⟨-, hmem⟩
    rw [hcount, heq] at hmem
    have hmem2 : '=' ∈ List.take ((xs ++ ys).length - ys.length) (xs ++ ys) := hmem
    rw [List.length_append,
      show xs.length + ys.length - ys.length = xs.length from by omega,
      List.take_left] at hmem2
    exact hpad hmem2

/-! Helper lemmas for the UTF-8 round trip. -/

/-- Bounds on the scalar value of a character: below U+110000 and not a
surrogate. -/
theorem char_scalar_bounds (c : Char) :
    c.toNat < 1114112 ∧ ¬ (55296 ≤ c.toNat ∧ c.toNat ≤ 57343) := by
  have hdef : c.toNat = c.val.toNat := rfl
  rcases c.valid with h | h
  · have h1 : c.val.toNat < (55296 : Nat) := h
    omega
  · obtain ⟨ha, hb⟩ := h
    have h1 : (57343 : Nat) < c.val.toNat := ha
    have h2 : c.val.toNat < (1114112 : Nat) := hb
    omega

set_option maxRecDepth 10000 in
/-- Decoding the UTF-8 encoding of one valid scalar value prepended to
any byte tail recovers the scalar value. -/
theorem decodeUtf8_encodeCodepoint (n : Nat) (rest : List Nat)
    (h1 : n < 1114112) (h2 : ¬ (55296 ≤ n ∧ n ≤ 57343)) :
    Utf8.decodeBytesUtf8 (Utf8.encodeCodepoint n ++ rest) =
      (Utf8.decodeBytesUtf8 rest).map (n :: ·) := by
  have hcont : ∀ m : Nat, Utf8.isCont (0x80 + m % 64) = true := by
    intro m
    unfold Utf8.isCont
    simp only [Bool.and_eq_true, decide_eq_true_eq]
    omega
  unfold Utf8.encodeCodepoint
  by_cases c1 : n < 128
  · rw [if_pos c1]
    show Utf8.decodeBytesUtf8 (n :: rest) = _
    conv_lhs => rw [Utf8.decodeBytesUtf8.eq_def]
    dsimp only
    rw [if_pos c1]
  · rw [if_neg c1]
    by_cases c2 : n < 2048
    · rw [if_pos c2]
      show Utf8.decodeBytesUtf8 ((0xC0 + n / 64) :: (0x80 + n % 64) :: rest) = _
      conv_lhs => rw [Utf8.decodeBytesUtf8.eq_def]
      dsimp only
      rw [if_neg (by omega), if_neg (by omega), if_pos (hcont n), if_pos (by omega)]
      rw [show (0xC0 + n / 64 - 0xC0) * 64 + (0x80 + n % 64 - 0x80) = n from by omega]
    · rw [if_neg c2]
      by_cases c3 : n < 65536
      · rw [if_pos c3]
        show Utf8.decodeBytesUtf8 ((0xE0 + n / 4096) ::
          (0x80 + n / 64 % 64) :: (0x80 + n % 64) :: rest) = _
        conv_lhs => rw [Utf8.decodeBytesUtf8.eq_def]
        dsimp only
        rw [if_neg (by omega), if_neg (by omega), if_pos (hcont (n / 64)),
          if_neg (by omega), if_pos (hcont n), if_pos (by omega),
          if_neg (by omega)]
        rw [show (0xE0 + n / 4096 - 0xE0) * 4096 + (0x80 + n / 64 % 64 - 0x80) * 64 +
          (0x80 + n % 64 - 0x80) = n from by omega]
      · rw [if_neg c3]
        show Utf8.decodeBytesUtf8 ((0xF0 + n / 262144) :: (0x80 + n / 4096 % 64) ::
          (0x80 + n / 64 % 64) :: (0x80 + n % 64) :: rest) = _
        conv_lhs => rw [Utf8.decodeBytesUtf8.eq_def]
        dsimp only
        rw [if_neg (by omega), if_neg (by omega), if_pos (hcont (n / 4096)),
          if_neg (by omega), if_pos (hcont (n / 64)), if_neg (by omega),
          if_pos (hcont n), if_pos (by omega), if_neg (by omega)]
        rw [show (0xF0 + n / 262144 - 0xF0) * 262144 + (0x80 + n / 4096 % 64 - 0x80) * 4096 +
          (0x80 + n / 64 % 64 - 0x80) * 64 + (0x80 + n % 64 - 0x80) = n from by omega]

/-- Decoding the UTF-8 encoding of a character list recovers the scalar
values. -/
theorem decodeUtf8_encodeChars : ∀ cs : List Char,
    Utf8.decodeBytesUtf8 (Utf8.encodeChars cs) = some (cs.map Char.toNat) := by
  intro cs
  induction cs with
  | nil => rfl
  | cons c cs ih =>
      show Utf8.decodeBytesUtf8 (Utf8.encodeCodepoint c.toNat ++ Utf8.encodeChars cs) = _
      obtain ⟨hb, hs⟩ := char_scalar_bounds c
      rw [decodeUtf8_encodeCodepoint _ _ hb hs, ih]
      rfl

/-- UTF-8 encoding produces bytes. -/
theorem encodeCodepoint_lt_256 (n : Nat) (h : n < 1114112) :
    ∀ b ∈ Utf8.encodeCodepoint n, b < 256 := by
  intro b hb
  unfold Utf8.encodeCodepoint at hb
  by_cases c1 : n < 128
  · rw [if_pos c1] at hb
    simp at hb
    omega
  · rw [if_neg c1] at hb
    by_cases c2 : n < 2048
    · rw [if_pos c2] at hb
      simp at hb
      rcases hb with rfl | rfl <;> omega
    · rw [if_neg c2] at hb
      by_cases c3 : n < 65536
      · rw [if_pos c3] at hb
        simp at hb
        rcases hb with rfl | rfl | rfl <;> omega
      · rw [if_neg c3] at hb
        simp at hb
        rcases hb with rfl | rfl | rfl | rfl <;> omega

/-- UTF-8 encoding of a character list produces bytes. -/
theorem encodeChars_lt_256 : ∀ cs : List Char, ∀ b ∈ Utf8.encodeChars cs, b < 256 := by
  intro cs
  induction cs with
  | nil => intro b hb; cases hb
  | cons c cs ih =>
      intro b hb
      rcases List.mem_append.mp hb with h | h
      · exact encodeCodepoint_lt_256 c.toNat (char_scalar_bounds c).1 b h
      · exact ih b h

/-- The UTF-8 encoding of a scalar value is nonempty. -/
theorem encodeCodepoint_ne_nil (n : Nat) : Utf8.encodeCodepoint n ≠ [] := by
  unfold Utf8.encodeCodepoint
  split_ifs <;> simp

/-- The UTF-8 encoding of a nonempty character list is nonempty. -/
theorem encodeChars_ne_nil (cs : List Char) (h : cs ≠ []) :
    Utf8.encodeChars cs ≠ [] := by
  cases cs with
  | nil => exact absurd rfl h
  | cons c cs =>
      show Utf8.encodeCodepoint c.toNat ++ Utf8.encodeChars cs ≠ []
      simp [encodeCodepoint_ne_nil c.toNat]

/-- Service-level round trip for nonempty strings within the length
cap: encode succeeds and decode inverts it. -/
theorem decode_encode_ok (t : String) (hne : t ≠ "")
    (hlen : t.length ≤ Base64Service.MAX_TEXT_LENGTH) :
    Base64Service.encode t =
        .ok (String.mk (Base64.encodeBytes (Utf8.encodeString t))) ∧
      Base64Service.decode (String.mk (Base64.encodeBytes (Utf8.encodeString t))) =
        .ok t := by
  have hdata : t.data ≠ [] := by
    intro hd
    apply hne
    show String.mk t.data = ""
    rw [hd]
  constructor
  · unfold Base64Service.encode Base64Service.is_valid_text
    by_cases h0 : t.length = 0
    · exfalso
      apply hdata
      exact List.length_eq_zero.mp h0
    · rw [if_neg h0, if_neg (by omega)]
  · have hbytes : ∀ b ∈ Utf8.encodeString t, b < 256 := encodeChars_lt_256 t.data
    have hbne : Utf8.encodeString t ≠ [] := encodeChars_ne_nil t.data hdata
    unfold Base64Service.decode
    rw [validate_base64_encodeBytes (Utf8.encodeString t) hbne hbytes]
    dsimp only
    rw [decodeBytes_encodeBytes (Utf8.encodeString t) hbytes]
    dsimp only
    rw [show Utf8.decodeBytesUtf8 (Utf8.encodeString t) =
      some (t.data.map Char.toNat) from decodeUtf8_encodeChars t.data]
    dsimp only
    rw [List.map_map]
    have hmaps : t.data.map (Char.ofNat ∘ Char.toNat) = t.data := by
      have : (Char.ofNat ∘ Char.toNat) = id := by
        funext c
        exact Char.ofNat_toNat c
      rw [this, List.map_id]
    rw [hmaps]

/-- Counterexample to C1 as stated: for the empty string the round trip
fails — encode("") returns "", which decode rejects as an empty base64
string, instead of returning "". -/
theorem roundtrip_fails_on_empty_string :
    Base64Service.encode "" = .ok "" ∧
      Base64Service.decode "" =
        .error "Invalid base64 input: Base64 string cannot be empty" :=
  ⟨rfl, rfl⟩

/-- C1 (amended): for every nonempty UTF-8 string of at most
MAX_TEXT_LENGTH characters, decoding the encoding returns the original
string, both at the `Base64Service` level and through a full
`tools/call` base64_encode / base64_decode round trip; the empty string
is excluded because decode rejects the empty base64 string that
encode("") produces. -/
theorem tools_call_roundtrip_nonempty (rid1 rid2 : JValue) (t : String)
    (hne : t ≠ "") (hlen : t.length ≤ Base64Service.MAX_TEXT_LENGTH) :
    ∃ e : String, Base64Service.encode t = .ok e ∧
      Base64Service.decode e = .ok t ∧
      MCPProtocolHandler.handle_request (encodeReq rid1 t) = toolOkResponse rid1 e ∧
      MCPProtocolHandler.handle_request (decodeReq rid2 e) = toolOkResponse rid2 t := by
  obtain ⟨henc, hdec⟩ := decode_encode_ok t hne hlen
  refine ⟨_, henc, hdec, ?_, ?_⟩
  · rw [handle_encodeReq, henc]
  · rw [handle_decodeReq, hdec]

/-- Witness for C1 (amended) at the concrete string "Hi✓". -/
theorem tools_call_roundtrip_nonempty_witness :
    ("Hi✓" ≠ "" ∧ "Hi✓".length ≤ Base64Service.MAX_TEXT_LENGTH) ∧
      ∃ e : String, Base64Service.encode "Hi✓" = .ok e ∧
        Base64Service.decode e = .ok "Hi✓" ∧
        MCPProtocolHandler.handle_request (encodeReq (.num 1) "Hi✓") =
          toolOkResponse (.num 1) e ∧
        MCPProtocolHandler.handle_request (decodeReq (.num 2) e) =
          toolOkResponse (.num 2) "Hi✓" :=
  ⟨⟨by decide, by decide⟩,
    tools_call_roundtrip_nonempty (.num 1) (.num 2) "Hi✓" (by decide) (by decide)⟩
